import Mathlib

/-!
Verification of `braket/default_simulator/operation_helpers.py`.

The module is embedded shallowly:
* numpy complex entries become exact complex rationals (`CQ`, componentwise
  kernel-computable fractions `QP`);
* numpy 2-d arrays become row-major lists of rows (`Mat`);
* `np.allclose(a, b)` (rtol = 1e-5, atol = 1e-8) is modelled exactly:
  the numpy condition `|a - b| <= atol + rtol * |b|` per entry, with the
  square root eliminated algebraically (both sides are nonnegative, so the
  comparison is squared; see `isclose` and `isclose_iff_close`);
* each `raise ValueError` site becomes a distinct constructor of `Err`,
  named after the error kind the specification assigns to that site;
* Python's bounded recursion stack is made explicit by a fuel parameter on
  `pauli_eigenvalues`; exhausting the fuel is `Err.recursionError`.
-/

namespace DefaultSimulator

instance {ε α : Type} [DecidableEq ε] [DecidableEq α] : DecidableEq (Except ε α) := fun a b =>
  match a, b with
  | .ok x, .ok y =>
    if h : x = y then .isTrue (by rw [h]) else .isFalse (fun hh => h (by cases hh; rfl))
  | .error x, .error y =>
    if h : x = y then .isTrue (by rw [h]) else .isFalse (fun hh => h (by cases hh; rfl))
  | .ok _, .error _ => .isFalse (fun hh => by cases hh)
  | .error _, .ok _ => .isFalse (fun hh => by cases hh)

/-- An exact fraction `num / den`. Every value the model constructs has a
positive denominator. Mathlib's ℚ does not reduce in the kernel (its
normalization uses well-founded recursion), so the embedding computes with
raw fractions; `QP.toRat` and the bridge lemmas below identify each
operation with the corresponding operation on ℚ. -/
structure QP where
  num : Int
  den : Nat
deriving DecidableEq

def QP.ofInt (i : Int) : QP := ⟨i, 1⟩

def QP.zero : QP := ⟨0, 1⟩

def QP.one : QP := ⟨1, 1⟩

def QP.add (a b : QP) : QP := ⟨a.num * b.den + b.num * a.den, a.den * b.den⟩

def QP.sub (a b : QP) : QP := ⟨a.num * b.den - b.num * a.den, a.den * b.den⟩

def QP.mul (a b : QP) : QP := ⟨a.num * b.num, a.den * b.den⟩

def QP.neg (a : QP) : QP := ⟨-a.num, a.den⟩

/-- Comparison `a <= b` by cross multiplication (valid for positive
denominators; see `QP.ble_iff_toRat`). -/
def QP.ble (a b : QP) : Bool := decide (a.num * (b.den : Int) ≤ b.num * (a.den : Int))

/-- The rational value of a fraction. -/
def QP.toRat (a : QP) : ℚ := (a.num : ℚ) / (a.den : ℚ)

/-- Exact model of a numpy complex scalar. -/
structure CQ where
  re : QP
  im : QP
deriving DecidableEq

def CQ.zero : CQ := ⟨QP.zero, QP.zero⟩

def CQ.one : CQ := ⟨QP.one, QP.zero⟩

def CQ.add (a b : CQ) : CQ := ⟨a.re.add b.re, a.im.add b.im⟩

def CQ.sub (a b : CQ) : CQ := ⟨a.re.sub b.re, a.im.sub b.im⟩

def CQ.mul (a b : CQ) : CQ :=
  ⟨(a.re.mul b.re).sub (a.im.mul b.im), (a.re.mul b.im).add (a.im.mul b.re)⟩

/-- Complex conjugate, `np.conj`. -/
def CQ.conj (a : CQ) : CQ := ⟨a.re, a.im.neg⟩

/-- Squared modulus `|a|^2`; rational, unlike the modulus itself. -/
def CQ.normSq (a : CQ) : QP := (a.re.mul a.re).add (a.im.mul a.im)

/-- A numpy 2-d array: a row-major list of rows. -/
def Mat : Type := List (List CQ)

instance : DecidableEq Mat := by
  unfold Mat
  infer_instance

/-- Entry `M[i][j]`, with `0` outside the bounds (all uses are in bounds). -/
def entry (m : Mat) (i j : Nat) : CQ := (m.getD i []).getD j CQ.zero

/-- Sum of a list of complex scalars. -/
def sumCQ (l : List CQ) : CQ := l.foldl CQ.add CQ.zero

/-- The identity matrix `np.eye(n)`. -/
def eye (n : Nat) : Mat :=
  (List.range n).map (fun i => (List.range n).map (fun j => if i = j then CQ.one else CQ.zero))

/-- Matrix product `a.dot(b)`. -/
def matMul (a b : Mat) : Mat :=
  (List.range a.length).map (fun i =>
    (List.range (b.getD 0 []).length).map (fun j =>
      sumCQ ((List.range b.length).map (fun k => CQ.mul (entry a i k) (entry b k j)))))

/-- Conjugate transpose `m.T.conj()`. -/
def dagger (m : Mat) : Mat :=
  (List.range (m.getD 0 []).length).map (fun i =>
    (List.range m.length).map (fun j => CQ.conj (entry m j i)))

/-- Elementwise sum of two same-shaped arrays. -/
def matAdd (a b : Mat) : Mat := List.zipWith (List.zipWith CQ.add) a b

/-- numpy default absolute tolerance `atol = 1e-8`. -/
def atol : QP := ⟨1, 100000000⟩

/-- numpy default relative tolerance `rtol = 1e-5`. -/
def rtol : QP := ⟨1, 100000⟩

/-- Per-entry closeness of `np.allclose`: `|a - b| <= atol + rtol * |b|`.
Both sides are nonnegative, so squaring gives the equivalent
`normSq (a-b) - atol^2 - rtol^2 * normSq b <= 2 * atol * rtol * |b|`;
writing `l` for the left side, that in turn holds iff `l <= 0` or
`l^2 <= 4 * atol^2 * rtol^2 * normSq b`, which is decidable over the
rationals (`isclose_iff_close` below proves the equivalence with the
numpy condition stated over ℝ). -/
def isclose (a b : CQ) : Bool :=
  let l : QP := (CQ.normSq (CQ.sub a b)).sub ((atol.mul atol).add ((rtol.mul rtol).mul (CQ.normSq b)))
  l.ble QP.zero ||
    (l.mul l).ble (((QP.ofInt 4).mul ((atol.mul atol).mul (rtol.mul rtol))).mul (CQ.normSq b))

/-- `np.allclose` on two same-shaped 2-d arrays: every entry is close.
(The shape conjuncts are vacuous for the same-shaped arguments this model
is used with.) -/
def allclose (a b : Mat) : Bool :=
  a.length == b.length &&
  (a.zip b).all (fun p =>
    p.1.length == p.2.length && (p.1.zip p.2).all (fun q => isclose q.1 q.2))

/-- Error kinds, one per `raise` site, named as in the specification.
`recursionError` models Python exhausting its recursion limit, and
`typeError` models `np.eye(*())` being called with no arguments; neither
corresponds to a `raise` written in the module. `invalidArgument` is the
error kind the specification demands for `pauli_eigenvalues` on input
below 1; no code path produces it. -/
inductive Err where
  | invalidShape
  | dimensionMismatch
  | notUnitary
  | notHermitian
  | notCPTP
  | unrecognizedInstruction
  | unrecognizedOperation
  | invalidArgument
  | recursionError
  | typeError
deriving DecidableEq

/-- `pauli_eigenvalues(num_qubits)` with Python's recursion stack made
explicit as fuel. The Python body is
`if num_qubits == 1: return np.array([1, -1])` then
`return np.concatenate([pauli_eigenvalues(n-1), -pauli_eigenvalues(n-1)])`;
there is no guard for inputs below 1, so those recurse until the stack is
exhausted (`Err.recursionError`, Python's `RecursionError`). -/
def pauli_eigenvalues : Nat → Int → Except Err (List Int)
  | 0, _ => .error .recursionError
  | fuel + 1, num_qubits =>
    if num_qubits = 1 then .ok [1, -1]
    else
      match pauli_eigenvalues fuel (num_qubits - 1) with
      | .ok l => .ok (l ++ l.map (fun x => -x))
      | .error e => .error e

/-- Modelled from the spec (reference definition quoted by the claim, to be
compared with the source translation `pauli_eigenvalues`):
`pauliEigenvalues(1) = [1, -1]` and
`pauliEigenvalues(n) = pauliEigenvalues(n-1) ⧺ (-pauliEigenvalues(n-1))`
for `n > 1`. The value at 0 is an arbitrary placeholder, never used. -/
def pauliEigenvaluesSpec : Nat → List Int
  | 0 => []
  | 1 => [1, -1]
  | n + 2 =>
    pauliEigenvaluesSpec (n + 1) ++ (pauliEigenvaluesSpec (n + 1)).map (fun x => -x)

/-- `ir_matrix_to_ndarray(matrix)`: each IR cell is a `[real, imaginary]`
pair; `element[0]` and `element[1]` are modelled with `getD` (in the
module's scope every cell has exactly two components). -/
def ir_matrix_to_ndarray (matrix : List (List (List QP))) : Mat :=
  matrix.map (fun row => row.map (fun element =>
    ⟨element.getD 0 QP.zero, element.getD 1 QP.zero⟩))

/-- The shape tuple of a numpy ndarray; `check_matrix_dimensions` inspects
nothing but the shape, so the array is modelled by it. -/
structure NDArray where
  shape : List Nat
deriving DecidableEq

/-- `check_matrix_dimensions(matrix, targets)`:
`if len(matrix.shape) != 2 or matrix.shape[0] != matrix.shape[1]` raise
(InvalidShape); then `dimension = 2 ** len(targets)` and
`if dimension != matrix.shape[0]` raise (DimensionMismatch). -/
def check_matrix_dimensions (matrix : NDArray) (targets : List Int) : Except Err Unit :=
  match matrix.shape with
  | [r, c] =>
    if r ≠ c then .error .invalidShape
    else if 2 ^ targets.length ≠ r then .error .dimensionMismatch
    else .ok ()
  | _ => .error .invalidShape

/-- `check_unitary(matrix)`:
`if not np.allclose(np.eye(len(matrix)), matrix.dot(matrix.T.conj()))` raise
(NotUnitary). -/
def check_unitary (matrix : Mat) : Except Err Unit :=
  if allclose (eye matrix.length) (matMul matrix (dagger matrix)) then .ok ()
  else .error .notUnitary

/-- `check_hermitian(matrix)`:
`if not np.allclose(matrix, matrix.T.conj())` raise (NotHermitian). -/
def check_hermitian (matrix : Mat) : Except Err Unit :=
  if allclose matrix (dagger matrix) then .ok () else .error .notHermitian

/-- The value `E = sum([np.dot(matrix.T.conjugate(), matrix) for matrix in matrices])`
for a nonempty list. Python's `sum` starts from the scalar `0`; adding `0`
to the first array returns that array, so for a nonempty list `E` is the
left fold of elementwise addition over the mapped list. -/
def cptpE (matrices : List Mat) : Mat :=
  match matrices.map (fun matrix => matMul (dagger matrix) matrix) with
  | [] => []
  | h :: t => t.foldl matAdd h

/-- `check_CPTP(matrices)`: computes `E` as above, then
`if not np.allclose(E, np.eye(*E.shape))` raise (NotCPTP). On the empty
list `E` is the scalar `0`, whose shape tuple is empty, so `np.eye(*())`
raises a `TypeError` (missing required argument) before any comparison. -/
def check_CPTP (matrices : List Mat) : Except Err Unit :=
  match matrices with
  | [] => .error .typeError
  | _ =>
    let E := cptpE matrices
    if allclose E (eye E.length) then .ok () else .error .notCPTP

/-- The three registered `Operation` variants of
`braket/default_simulator/operation.py` (declared outside this module and
imported by it), plus `other` standing for any Python value outside the
variant set, on which the `singledispatch` fallback fires. -/
inductive Operation where
  | gateOperation (matrix : Mat)
  | krausOperation (matrices : List Mat)
  | observable (diagonalizing_matrix : Mat)
  | other

/-- The heterogeneous return shape of `get_matrix`: a single matrix for a
gate or an observable, an ordered list for a Kraus channel. -/
inductive MatrixOrList where
  | single (m : Mat)
  | list (ms : List Mat)

/-- `_get_matrix`: `singledispatch` with a registered handler per variant
(`gate.matrix`, `kraus.matrices`, `observable.diagonalizing_matrix`) and a
fallback raising (UnrecognizedOperation). -/
def _get_matrix : Operation → Except Err MatrixOrList
  | .gateOperation matrix => .ok (.single matrix)
  | .krausOperation matrices => .ok (.list matrices)
  | .observable diagonalizing_matrix => .ok (.single diagonalizing_matrix)
  | .other => .error .unrecognizedOperation

/-- `get_matrix(operation)` just delegates to `_get_matrix`. -/
def get_matrix (operation : Operation) : Except Err MatrixOrList :=
  _get_matrix operation

/-- An incoming instruction: an opaque record carrying its discriminant
(in Python, the concrete type `singledispatch` keys on). -/
structure Instruction where
  discriminant : String

/-- `_from_braket_instruction`: `singledispatch` over the instruction's
discriminant. The registry (populated by modules outside this file via
`@_from_braket_instruction.register`) maps a discriminant to a constructor;
the unregistered fallback raises (UnrecognizedInstruction). -/
def _from_braket_instruction (registry : String → Option (Instruction → Operation))
    (instruction : Instruction) : Except Err Operation :=
  match registry instruction.discriminant with
  | some ctor => .ok (ctor instruction)
  | none => .error .unrecognizedInstruction

/-- `from_braket_instruction(instruction)` delegates to
`_from_braket_instruction`. -/
def from_braket_instruction (registry : String → Option (Instruction → Operation))
    (instruction : Instruction) : Except Err Operation :=
  _from_braket_instruction registry instruction

/-! Concrete matrices named by the testable properties of the
specification. -/

/-- The complex scalar `r + i*I` with integer components. -/
def cq (r i : Int) : CQ := ⟨QP.ofInt r, QP.ofInt i⟩

/-- The 2x2 identity matrix. -/
def id2 : Mat := [[cq 1 0, cq 0 0], [cq 0 0, cq 1 0]]

/-- The 2x2 Pauli-X matrix `[[0,1],[1,0]]`. -/
def pauliX : Mat := [[cq 0 0, cq 1 0], [cq 1 0, cq 0 0]]

/-- The non-unitary, non-Hermitian matrix `[[1,1],[0,1]]`. -/
def upperT : Mat := [[cq 1 0, cq 1 0], [cq 0 0, cq 1 0]]

/-- The projector `[[1,0],[0,0]]`. -/
def projZero : Mat := [[cq 1 0, cq 0 0], [cq 0 0, cq 0 0]]

/-- The complementary projector `[[0,0],[0,1]]`. -/
def projOne : Mat := [[cq 0 0, cq 0 0], [cq 0 0, cq 1 0]]

/-- The Hermitian matrix `[[1,0],[0,-1]]`. -/
def diagZ : Mat := [[cq 1 0, cq 0 0], [cq 0 0, cq (-1) 0]]

/-- A list-of-rows value is a square matrix: every row is as long as the
list of rows. -/
def isSquare (m : Mat) : Bool := m.all (fun row => row.length == m.length)

/-! Bridge lemmas: the fraction arithmetic of `QP` agrees with ℚ, and
`isclose` agrees with the numpy closeness condition stated over ℝ with a
genuine square root. -/

theorem QP.toRat_add {a b : QP} (ha : a.den ≠ 0) (hb : b.den ≠ 0) :
    (a.add b).toRat = a.toRat + b.toRat := by
  have ha' : ((a.den : ℚ)) ≠ 0 := Nat.cast_ne_zero.mpr ha
  have hb' : ((b.den : ℚ)) ≠ 0 := Nat.cast_ne_zero.mpr hb
  unfold QP.toRat QP.add
  push_cast
  field_simp

theorem QP.toRat_sub {a b : QP} (ha : a.den ≠ 0) (hb : b.den ≠ 0) :
    (a.sub b).toRat = a.toRat - b.toRat := by
  have ha' : ((a.den : ℚ)) ≠ 0 := Nat.cast_ne_zero.mpr ha
  have hb' : ((b.den : ℚ)) ≠ 0 := Nat.cast_ne_zero.mpr hb
  unfold QP.toRat QP.sub
  push_cast
  field_simp
  ring

theorem QP.toRat_mul (a b : QP) : (a.mul b).toRat = a.toRat * b.toRat := by
  unfold QP.toRat QP.mul
  push_cast
  rw [div_mul_div_comm]


theorem QP.toRat_zero : QP.zero.toRat = 0 := by
  unfold QP.toRat QP.zero
  norm_num

theorem QP.ble_iff_toRat {a b : QP} (ha : a.den ≠ 0) (hb : b.den ≠ 0) :
    a.ble b = true ↔ a.toRat ≤ b.toRat := by
  have ha' : (0 : ℚ) < a.den := by exact_mod_cast Nat.pos_of_ne_zero ha
  have hb' : (0 : ℚ) < b.den := by exact_mod_cast Nat.pos_of_ne_zero hb
  unfold QP.ble QP.toRat
  rw [decide_eq_true_iff, div_le_div_iff₀ ha' hb']
  exact_mod_cast Iff.rfl

theorem CQ.normSq_toRat {x : CQ} (h1 : x.re.den ≠ 0) (h2 : x.im.den ≠ 0) :
    (CQ.normSq x).toRat = x.re.toRat * x.re.toRat + x.im.toRat * x.im.toRat := by
  unfold CQ.normSq
  rw [QP.toRat_add (Nat.mul_ne_zero h1 h1) (Nat.mul_ne_zero h2 h2),
    QP.toRat_mul, QP.toRat_mul]

theorem CQ.normSq_toRat_nonneg {x : CQ} (h1 : x.re.den ≠ 0) (h2 : x.im.den ≠ 0) :
    0 ≤ (CQ.normSq x).toRat := by
  rw [CQ.normSq_toRat h1 h2]
  have hre := mul_self_nonneg x.re.toRat
  have him := mul_self_nonneg x.im.toRat
  linarith

/-- For nonnegative `d` and `nb` and positive tolerances, the square-free
disjunction computed by `isclose` is equivalent to the numpy closeness
condition `sqrt d <= atol + rtol * sqrt nb`. -/
theorem sqrt_close_iff (d nb a r : ℝ) (hd : 0 ≤ d) (hnb : 0 ≤ nb)
    (hA : 0 < a) (hR : 0 < r) :
    Real.sqrt d ≤ a + r * Real.sqrt nb ↔
      (d - (a * a + r * r * nb) ≤ 0 ∨
        (d - (a * a + r * r * nb)) * (d - (a * a + r * r * nb)) ≤
          4 * (a * a) * (r * r) * nb) := by
  have hs0 : 0 ≤ Real.sqrt nb := Real.sqrt_nonneg nb
  have hss : Real.sqrt nb * Real.sqrt nb = nb := Real.mul_self_sqrt hnb
  set s := Real.sqrt nb with hs
  set L := d - (a * a + r * r * nb) with hL
  have hR0 : 0 ≤ a + r * s := by positivity
  constructor
  · intro h
    have hds : d ≤ (a + r * s) * (a + r * s) := by
      calc d = Real.sqrt d * Real.sqrt d := (Real.mul_self_sqrt hd).symm
        _ ≤ (a + r * s) * (a + r * s) := mul_self_le_mul_self (Real.sqrt_nonneg d) h
    have hL2 : L ≤ 2 * a * r * s := by nlinarith [hss, hds]
    by_cases hc : L ≤ 0
    · exact Or.inl hc
    · push_neg at hc
      have hsq := mul_self_le_mul_self (le_of_lt hc) hL2
      have hexp : 2 * a * r * s * (2 * a * r * s) = 4 * (a * a) * (r * r) * nb := by
        rw [← hss]; ring
      exact Or.inr (by linarith)
  · intro h
    have hL2 : L ≤ 2 * a * r * s := by
      rcases h with h | h
      · have h2 : 0 ≤ 2 * a * r * s := by positivity
        linarith
      · by_contra hc
        push_neg at hc
        have h2 : 0 ≤ 2 * a * r * s := by positivity
        have hsq := mul_self_lt_mul_self h2 hc
        have hexp : 2 * a * r * s * (2 * a * r * s) = 4 * (a * a) * (r * r) * nb := by
          rw [← hss]; ring
        linarith
    have hds : d ≤ (a + r * s) * (a + r * s) := by nlinarith [hss, hL2]
    calc Real.sqrt d ≤ Real.sqrt ((a + r * s) * (a + r * s)) := Real.sqrt_le_sqrt hds
      _ = a + r * s := Real.sqrt_mul_self hR0

/-- The `isclose` computation is exactly numpy's
`|a - b| <= atol + rtol * |b|`, stated over ℝ (the moduli are genuine
square roots), for entries whose denominators are nonzero — as they are
for every value the model constructs. -/
theorem isclose_iff_close (a b : CQ)
    (har : a.re.den ≠ 0) (hai : a.im.den ≠ 0) (hbr : b.re.den ≠ 0) (hbi : b.im.den ≠ 0) :
    isclose a b = true ↔
      Real.sqrt (((CQ.normSq (CQ.sub a b)).toRat : ℝ)) ≤
        ((atol.toRat : ℝ)) + ((rtol.toRat : ℝ)) *
          Real.sqrt (((CQ.normSq b).toRat : ℝ)) := by
  have hsubr : (CQ.sub a b).re.den ≠ 0 := Nat.mul_ne_zero har hbr
  have hsubi : (CQ.sub a b).im.den ≠ 0 := Nat.mul_ne_zero hai hbi
  have hdsub : (CQ.normSq (CQ.sub a b)).den ≠ 0 :=
    Nat.mul_ne_zero (Nat.mul_ne_zero hsubr hsubr) (Nat.mul_ne_zero hsubi hsubi)
  have hdb : (CQ.normSq b).den ≠ 0 :=
    Nat.mul_ne_zero (Nat.mul_ne_zero hbr hbr) (Nat.mul_ne_zero hbi hbi)
  have hda : atol.den ≠ 0 := by decide
  have hdr : rtol.den ≠ 0 := by decide
  have hdaa : (atol.mul atol).den ≠ 0 := Nat.mul_ne_zero hda hda
  have hdrr : (rtol.mul rtol).den ≠ 0 := Nat.mul_ne_zero hdr hdr
  have hdrhs : ((rtol.mul rtol).mul (CQ.normSq b)).den ≠ 0 := Nat.mul_ne_zero hdrr hdb
  have hdtol : ((atol.mul atol).add ((rtol.mul rtol).mul (CQ.normSq b))).den ≠ 0 :=
    Nat.mul_ne_zero hdaa hdrhs
  have hdl :
      ((CQ.normSq (CQ.sub a b)).sub
        ((atol.mul atol).add ((rtol.mul rtol).mul (CQ.normSq b)))).den ≠ 0 :=
    Nat.mul_ne_zero hdsub hdtol
  have hdfour : (((QP.ofInt 4).mul ((atol.mul atol).mul (rtol.mul rtol))).mul
      (CQ.normSq b)).den ≠ 0 :=
    Nat.mul_ne_zero (Nat.mul_ne_zero (by decide) (Nat.mul_ne_zero hdaa hdrr)) hdb
  have hlval :
      ((CQ.normSq (CQ.sub a b)).sub
        ((atol.mul atol).add ((rtol.mul rtol).mul (CQ.normSq b)))).toRat =
      (CQ.normSq (CQ.sub a b)).toRat -
        (atol.toRat * atol.toRat + rtol.toRat * rtol.toRat * (CQ.normSq b).toRat) := by
    rw [QP.toRat_sub hdsub hdtol, QP.toRat_add hdaa hdrhs, QP.toRat_mul, QP.toRat_mul,
      QP.toRat_mul]
  have hrhsval :
      (((QP.ofInt 4).mul ((atol.mul atol).mul (rtol.mul rtol))).mul
        (CQ.normSq b)).toRat =
      4 * (atol.toRat * atol.toRat) * (rtol.toRat * rtol.toRat) * (CQ.normSq b).toRat := by
    simp only [QP.toRat_mul]
    have h4 : (QP.ofInt 4).toRat = 4 := by norm_num [QP.toRat, QP.ofInt]
    rw [h4]
    ring
  have hiff : isclose a b = true ↔
      (((CQ.normSq (CQ.sub a b)).sub
          ((atol.mul atol).add ((rtol.mul rtol).mul (CQ.normSq b)))).ble QP.zero = true ∨
        ((((CQ.normSq (CQ.sub a b)).sub
            ((atol.mul atol).add ((rtol.mul rtol).mul (CQ.normSq b)))).mul
          ((CQ.normSq (CQ.sub a b)).sub
            ((atol.mul atol).add ((rtol.mul rtol).mul (CQ.normSq b))))).ble
          (((QP.ofInt 4).mul ((atol.mul atol).mul (rtol.mul rtol))).mul
            (CQ.normSq b)) = true)) := by
    unfold isclose
    rw [Bool.or_eq_true]
  rw [hiff, QP.ble_iff_toRat hdl (by decide), QP.ble_iff_toRat (Nat.mul_ne_zero hdl hdl) hdfour,
    QP.toRat_zero, QP.toRat_mul, hlval, hrhsval]
  have hd0 : (0 : ℝ) ≤ ((CQ.normSq (CQ.sub a b)).toRat : ℝ) := by
    exact_mod_cast CQ.normSq_toRat_nonneg hsubr hsubi
  have hnb0 : (0 : ℝ) ≤ ((CQ.normSq b).toRat : ℝ) := by
    exact_mod_cast CQ.normSq_toRat_nonneg hbr hbi
  have hA : (0 : ℝ) < (atol.toRat : ℝ) := by
    have : atol.toRat = 1 / 100000000 := by norm_num [QP.toRat, atol]
    rw [this]; norm_num
  have hR : (0 : ℝ) < (rtol.toRat : ℝ) := by
    have : rtol.toRat = 1 / 100000 := by norm_num [QP.toRat, rtol]
    rw [this]; norm_num
  rw [sqrt_close_iff _ _ _ _ hd0 hnb0 hA hR]
  constructor
  · rintro (h | h)
    · exact Or.inl (by exact_mod_cast h)
    · exact Or.inr (by exact_mod_cast h)
  · rintro (h | h)
    · exact Or.inl (by exact_mod_cast h)
    · exact Or.inr (by exact_mod_cast h)

/-! Helper lemmas about the eigenvalue generator. -/

/-- With recursion budget at least `n`, the source recursion computes the
reference spectrum. -/
theorem pauli_fuel_ok :
    ∀ fuel n : Nat, 1 ≤ n → n ≤ fuel →
      pauli_eigenvalues fuel (n : Int) = .ok (pauliEigenvaluesSpec n) := by
  intro fuel
  induction fuel with
  | zero => intro n h1 hf; omega
  | succ f ih =>
    intro n h1 hf
    match n, h1 with
    | 1, _ => simp [pauli_eigenvalues, pauliEigenvaluesSpec]
    | (m + 2), _ =>
      have hne : ((m + 2 : Nat) : Int) ≠ 1 := by omega
      have hcast : ((m + 2 : Nat) : Int) - 1 = ((m + 1 : Nat) : Int) := by push_cast; ring
      have hrec := ih (m + 1) (by omega) (by omega)
      simp only [pauli_eigenvalues, if_neg hne, hcast, hrec]
      rfl

/-- Below 1 the guard never fires and each call recurses on a smaller
input, so every finite recursion budget is exhausted. -/
theorem pauli_fuel_diverges :
    ∀ (fuel : Nat) (n : Int), n < 1 → pauli_eigenvalues fuel n = .error .recursionError := by
  intro fuel
  induction fuel with
  | zero => intro n _; rfl
  | succ f ih =>
    intro n h
    have hne : n ≠ 1 := by omega
    have hrec := ih (n - 1) (by omega)
    simp [pauli_eigenvalues, if_neg hne, hrec]

/-- The reference spectrum at qubit count `m + 1` has length `2 ^ (m + 1)`. -/
theorem pauliEigenvaluesSpec_length :
    ∀ m : Nat, (pauliEigenvaluesSpec (m + 1)).length = 2 ^ (m + 1) := by
  intro m
  induction m with
  | zero => rfl
  | succ k ih =>
    show (pauliEigenvaluesSpec (k + 2)).length = 2 ^ (k + 2)
    have h2 : (2 : Nat) ^ (k + 2) = 2 ^ (k + 1) + 2 ^ (k + 1) := by rw [pow_succ]; omega
    simp only [pauliEigenvaluesSpec, List.length_append, List.length_map, ih, h2]

/-- Every element of the reference spectrum is `1` or `-1`. -/
theorem pauliEigenvaluesSpec_mem :
    ∀ m : Nat, ∀ x ∈ pauliEigenvaluesSpec (m + 1), x = 1 ∨ x = -1 := by
  intro m
  induction m with
  | zero => intro x hx; simpa [pauliEigenvaluesSpec] using hx
  | succ k ih =>
    intro x hx
    rcases List.mem_append.mp hx with h | h
    · exact ih x h
    · rcases List.mem_map.mp h with ⟨y, hy, rfl⟩
      rcases ih y hy with rfl | rfl
      · right; rfl
      · left; rfl

/-- C1: for every `n ≥ 1` (granted a recursion budget of at least `n`,
Python's stack being finite), `pauli_eigenvalues n` returns exactly the
reference spectrum: `[1, -1]` at `n = 1`, and the previous spectrum
followed by its elementwise negation at `n > 1`; consequently the result
has length `2 ^ n` and every element is `+1` or `-1`. -/
theorem pauli_eigenvalues_matches_spec (n fuel : Nat) (h1 : 1 ≤ n) (hf : n ≤ fuel) :
    pauli_eigenvalues fuel (n : Int) = .ok (pauliEigenvaluesSpec n) ∧
    (pauliEigenvaluesSpec n).length = 2 ^ n ∧
    (∀ x ∈ pauliEigenvaluesSpec n, x = 1 ∨ x = -1) ∧
    pauliEigenvaluesSpec 1 = [1, -1] ∧
    (1 < n → pauliEigenvaluesSpec n =
      pauliEigenvaluesSpec (n - 1) ++ (pauliEigenvaluesSpec (n - 1)).map (fun x => -x)) := by
  refine ⟨pauli_fuel_ok fuel n h1 hf, ?_, ?_, rfl, ?_⟩
  · obtain ⟨m, rfl⟩ : ∃ m, n = m + 1 := ⟨n - 1, by omega⟩
    exact pauliEigenvaluesSpec_length m
  · obtain ⟨m, rfl⟩ : ∃ m, n = m + 1 := ⟨n - 1, by omega⟩
    exact pauliEigenvaluesSpec_mem m
  · intro hlt
    obtain ⟨m, rfl⟩ : ∃ m, n = m + 2 := ⟨n - 2, by omega⟩
    rfl

/-- Witness for C1 at `n = 2` with budget `2`. -/
theorem pauli_eigenvalues_matches_spec_witness :
    pauli_eigenvalues 2 ((2 : Nat) : Int) = .ok (pauliEigenvaluesSpec 2) ∧
    (pauliEigenvaluesSpec 2).length = 2 ^ 2 ∧
    (∀ x ∈ pauliEigenvaluesSpec 2, x = 1 ∨ x = -1) ∧
    pauliEigenvaluesSpec 1 = [1, -1] ∧
    (1 < 2 → pauliEigenvaluesSpec 2 =
      pauliEigenvaluesSpec (2 - 1) ++ (pauliEigenvaluesSpec (2 - 1)).map (fun x => -x)) :=
  pauli_eigenvalues_matches_spec 2 2 (by decide) (by decide)

/-- C2 (the code diverges instead): for every input below 1 and every
finite recursion budget, `pauli_eigenvalues` exhausts the budget and fails
with `recursionError` — it never raises `invalidArgument` and never
returns a value. -/
theorem pauli_eigenvalues_below_one_recursion_error (fuel : Nat) (n : Int) (h : n < 1) :
    pauli_eigenvalues fuel n = .error .recursionError ∧
    pauli_eigenvalues fuel n ≠ .error .invalidArgument ∧
    ∀ l, pauli_eigenvalues fuel n ≠ .ok l := by
  have hd := pauli_fuel_diverges fuel n h
  exact ⟨hd, by simp [hd], fun l => by simp [hd]⟩

/-- Witness for C2 at `num_qubits = 0` with budget `10`. -/
theorem pauli_eigenvalues_below_one_recursion_error_witness :
    pauli_eigenvalues 10 0 = .error .recursionError ∧
    pauli_eigenvalues 10 0 ≠ .error .invalidArgument ∧
    ∀ l, pauli_eigenvalues 10 0 ≠ .ok l :=
  pauli_eigenvalues_below_one_recursion_error 10 0 (by decide)

/-- C3: for every square matrix `M`, `check_unitary M` completes silently
exactly when `M * Mᴴ` is within the numpy tolerance of the identity of
matching size, and otherwise fails with `notUnitary`; it accepts the 2x2
identity and Pauli-X and rejects `[[1,1],[0,1]]`. -/
theorem check_unitary_spec :
    (∀ m : Mat, isSquare m = true →
      (check_unitary m = .ok () ↔
        allclose (eye m.length) (matMul m (dagger m)) = true) ∧
      (allclose (eye m.length) (matMul m (dagger m)) = false →
        check_unitary m = .error .notUnitary)) ∧
    check_unitary id2 = .ok () ∧
    check_unitary pauliX = .ok () ∧
    check_unitary upperT = .error .notUnitary := by
  refine ⟨fun m _ => ?_, by decide, by decide, by decide⟩
  unfold check_unitary
  constructor
  · split <;> simp_all
  · intro hfalse
    split <;> simp_all

/-- Witness for C3: the theorem applied to the 2x2 identity. -/
theorem check_unitary_spec_witness : check_unitary id2 = .ok () :=
  (check_unitary_spec.1 id2 (by decide)).1.mpr (by decide)

/-- C9: for every square matrix `M`, `check_hermitian M` completes
silently exactly when `M` is within the numpy tolerance of its own
conjugate transpose, and otherwise fails with `notHermitian`; it accepts
`[[1,0],[0,-1]]` and rejects `[[1,1],[0,1]]`. -/
theorem check_hermitian_spec :
    (∀ m : Mat, isSquare m = true →
      (check_hermitian m = .ok () ↔ allclose m (dagger m) = true) ∧
      (allclose m (dagger m) = false → check_hermitian m = .error .notHermitian)) ∧
    check_hermitian diagZ = .ok () ∧
    check_hermitian upperT = .error .notHermitian := by
  refine ⟨fun m _ => ?_, by decide, by decide⟩
  unfold check_hermitian
  constructor
  · split <;> simp_all
  · intro hfalse
    split <;> simp_all

/-- Witness for C9: the theorem applied to `[[1,0],[0,-1]]`. -/
theorem check_hermitian_spec_witness : check_hermitian diagZ = .ok () :=
  (check_hermitian_spec.1 diagZ (by decide)).1.mpr (by decide)

/-- C4: for every nonempty list of matrices, `check_CPTP` forms
`E = Σ Mᵢᴴ·Mᵢ` (`cptpE`) and completes silently exactly when `E` is within
the numpy tolerance of the identity of `E`'s shape, failing with `notCPTP`
otherwise; it accepts `[id2]`, rejects `[[[1,0],[0,0]]]`, and accepts that
projector paired with its complement. -/
theorem check_CPTP_spec :
    (∀ (m : Mat) (rest : List Mat),
      (check_CPTP (m :: rest) = .ok () ↔
        allclose (cptpE (m :: rest)) (eye (cptpE (m :: rest)).length) = true) ∧
      (allclose (cptpE (m :: rest)) (eye (cptpE (m :: rest)).length) = false →
        check_CPTP (m :: rest) = .error .notCPTP)) ∧
    check_CPTP [id2] = .ok () ∧
    check_CPTP [projZero] = .error .notCPTP ∧
    check_CPTP [projZero, projOne] = .ok () := by
  refine ⟨fun m rest => ?_, by decide, by decide, by decide⟩
  unfold check_CPTP
  constructor
  · split <;> simp_all
  · intro hfalse
    split <;> simp_all

/-- Witness for C4: the theorem applied to the singleton `[projZero]`,
whose sum is not close to the identity. -/
theorem check_CPTP_spec_witness : check_CPTP [projZero] = .error .notCPTP :=
  (check_CPTP_spec.1 projZero []).2 (by decide)

/-- C5: `check_matrix_dimensions` fails with `invalidShape` when the shape
is not two-dimensional or not square (taking precedence over the target
count), fails with `dimensionMismatch` when the square side differs from
`2 ^ len(targets)`, and otherwise returns nothing; a 4x4 matrix against
one target raises `dimensionMismatch`, and a 2x3 matrix raises
`invalidShape` for every target tuple. -/
theorem check_matrix_dimensions_spec :
    (∀ (m : NDArray) (targets : List Int),
      (m.shape.length ≠ 2 → check_matrix_dimensions m targets = .error .invalidShape) ∧
      (∀ r c, m.shape = [r, c] → r ≠ c →
        check_matrix_dimensions m targets = .error .invalidShape) ∧
      (∀ d, m.shape = [d, d] → 2 ^ targets.length ≠ d →
        check_matrix_dimensions m targets = .error .dimensionMismatch) ∧
      (∀ d, m.shape = [d, d] → 2 ^ targets.length = d →
        check_matrix_dimensions m targets = .ok ())) ∧
    check_matrix_dimensions ⟨[4, 4]⟩ [0] = .error .dimensionMismatch ∧
    (∀ targets, check_matrix_dimensions ⟨[2, 3]⟩ targets = .error .invalidShape) := by
  refine ⟨fun m targets => ⟨?_, ?_, ?_, ?_⟩, by decide, fun targets => by
    simp [check_matrix_dimensions]⟩
  · intro hlen
    unfold check_matrix_dimensions
    match hs : m.shape with
    | [] => rfl
    | [_] => rfl
    | [r, c] => rw [hs] at hlen; simp at hlen
    | _ :: _ :: _ :: _ => rfl
  · intro r c hs hne
    simp [check_matrix_dimensions, hs, hne]
  · intro d hs hne
    simp [check_matrix_dimensions, hs, hne]
  · intro d hs he
    simp [check_matrix_dimensions, hs, he]

/-- Witness for C5: the theorem applied to the 4x4 shape against one
target. -/
theorem check_matrix_dimensions_spec_witness :
    check_matrix_dimensions ⟨[4, 4]⟩ [0] = .error .dimensionMismatch :=
  (check_matrix_dimensions_spec.1 ⟨[4, 4]⟩ [0]).2.2.1 4 rfl (by decide)

/-- C6: `get_matrix` is exhaustive over exactly the three variants: a gate
yields its unitary matrix, a Kraus channel its ordered matrix list, an
observable its diagonalizing matrix, and any value outside the variant set
fails with `unrecognizedOperation`. -/
theorem get_matrix_spec :
    (∀ m : Mat, get_matrix (.gateOperation m) = .ok (.single m)) ∧
    (∀ ms : List Mat, get_matrix (.krausOperation ms) = .ok (.list ms)) ∧
    (∀ m : Mat, get_matrix (.observable m) = .ok (.single m)) ∧
    get_matrix .other = .error .unrecognizedOperation ∧
    (∀ operation : Operation, operation ≠ .other →
      ∃ r, get_matrix operation = .ok r) := by
  refine ⟨fun _ => rfl, fun _ => rfl, fun _ => rfl, rfl, fun operation hne => ?_⟩
  cases operation with
  | gateOperation m => exact ⟨.single m, rfl⟩
  | krausOperation ms => exact ⟨.list ms, rfl⟩
  | observable m => exact ⟨.single m, rfl⟩
  | other => exact absurd rfl hne

/-- Witness for C6: the theorem applied to a gate holding the 2x2
identity. -/
theorem get_matrix_spec_witness :
    ∃ r, get_matrix (.gateOperation id2) = .ok r :=
  get_matrix_spec.2.2.2.2 (.gateOperation id2) (fun h => Operation.noConfusion h)

/-- C7: whenever no constructor is registered for an instruction's
discriminant, `from_braket_instruction` fails with
`unrecognizedInstruction` and produces no operation. -/
theorem from_braket_instruction_unregistered
    (registry : String → Option (Instruction → Operation)) (instruction : Instruction)
    (h : registry instruction.discriminant = none) :
    from_braket_instruction registry instruction = .error .unrecognizedInstruction ∧
    ∀ operation, from_braket_instruction registry instruction ≠ .ok operation := by
  unfold from_braket_instruction _from_braket_instruction
  rw [h]
  exact ⟨rfl, fun operation hc => by cases hc⟩

/-- Witness for C7: the empty registry recognizes nothing. -/
theorem from_braket_instruction_unregistered_witness :
    from_braket_instruction (fun _ => none) ⟨"Unknown"⟩ = .error .unrecognizedInstruction ∧
    ∀ operation, from_braket_instruction (fun _ => none) ⟨"Unknown"⟩ ≠ .ok operation :=
  from_braket_instruction_unregistered (fun _ => none) ⟨"Unknown"⟩ rfl

/-- C8: decoding preserves shape and ordering: the decoded matrix has one
row per IR row of the same length, and the entry at row `i`, column `j` is
the complex number with real part `raw[i][j][0]` and imaginary part
`raw[i][j][1]`. -/
theorem ir_matrix_to_ndarray_spec (matrix : List (List (List QP))) (i j : Nat)
    (hi : i < matrix.length) (hj : j < (matrix.getD i []).length) :
    (ir_matrix_to_ndarray matrix).length = matrix.length ∧
    ((ir_matrix_to_ndarray matrix).getD i []).length = (matrix.getD i []).length ∧
    ((ir_matrix_to_ndarray matrix).getD i []).getD j CQ.zero =
      ⟨((matrix.getD i []).getD j []).getD 0 QP.zero,
       ((matrix.getD i []).getD j []).getD 1 QP.zero⟩ := by
  have hrow : matrix[i]? = some matrix[i] := List.getElem?_eq_getElem hi
  have hgd : matrix.getD i [] = matrix[i] := by
    simp [List.getD_eq_getElem?_getD, hrow]
  have hmap : (ir_matrix_to_ndarray matrix).getD i [] =
      matrix[i].map (fun element =>
        (⟨element.getD 0 QP.zero, element.getD 1 QP.zero⟩ : CQ)) := by
    simp [ir_matrix_to_ndarray, List.getD_eq_getElem?_getD, hrow]
  rw [hgd] at hj ⊢
  have hcell : matrix[i][j]? = some matrix[i][j] := List.getElem?_eq_getElem hj
  refine ⟨by simp [ir_matrix_to_ndarray], ?_, ?_⟩
  · rw [hmap]; simp
  · rw [hmap]
    simp only [List.getD_eq_getElem?_getD, List.getElem?_map, hcell, Option.map_some',
      Option.getD_some]

/-- Witness for C8: the theorem applied to a concrete 2x2 IR matrix at
row 0, column 1. -/
theorem ir_matrix_to_ndarray_spec_witness :
    (ir_matrix_to_ndarray [[[⟨1, 1⟩, ⟨2, 1⟩], [⟨3, 1⟩, ⟨4, 1⟩]]]).length =
      ([[[⟨1, 1⟩, ⟨2, 1⟩], [⟨3, 1⟩, ⟨4, 1⟩]]] : List (List (List QP))).length ∧
    ((ir_matrix_to_ndarray [[[⟨1, 1⟩, ⟨2, 1⟩], [⟨3, 1⟩, ⟨4, 1⟩]]]).getD 0 []).length =
      (([[[⟨1, 1⟩, ⟨2, 1⟩], [⟨3, 1⟩, ⟨4, 1⟩]]] :
        List (List (List QP))).getD 0 []).length ∧
    ((ir_matrix_to_ndarray [[[⟨1, 1⟩, ⟨2, 1⟩], [⟨3, 1⟩, ⟨4, 1⟩]]]).getD 0 []).getD 1 CQ.zero =
      ⟨((([[[⟨1, 1⟩, ⟨2, 1⟩], [⟨3, 1⟩, ⟨4, 1⟩]]] :
          List (List (List QP))).getD 0 []).getD 1 []).getD 0 QP.zero,
        ((([[[⟨1, 1⟩, ⟨2, 1⟩], [⟨3, 1⟩, ⟨4, 1⟩]]] :
          List (List (List QP))).getD 0 []).getD 1 []).getD 1 QP.zero⟩ :=
  ir_matrix_to_ndarray_spec [[[⟨1, 1⟩, ⟨2, 1⟩], [⟨3, 1⟩, ⟨4, 1⟩]]] 0 1
    (by decide) (by decide)

/-- C10: on the empty list `check_CPTP` neither completes silently nor
fails with the documented `notCPTP` kind: Python's `sum` over the empty
list is the scalar `0`, so building the identity for the comparison raises
a `TypeError`. -/
theorem check_CPTP_empty_list :
    check_CPTP [] ≠ .ok () ∧
    check_CPTP [] ≠ .error .notCPTP ∧
    check_CPTP [] = .error .typeError := by
  refine ⟨by decide, by decide, rfl⟩

end DefaultSimulator
